import Mathlib

/-!
Verification of the CallMind document-relay services against their design
specification.  The Python sources are shallowly embedded: the external
chroma vector store is modelled as a functional map from collection names
to lists of documents; Python dicts become association lists; timestamps
produced by datetime.now and datetime.utcnow are opaque string parameters;
the uuid generated for a new document is likewise a parameter.
-/

namespace CallMind

/-- Python dict from string keys to (scalar) values, modelled as an
association list over string values.  Lookup returns the first binding. -/
abbrev Metadata := List (String × String)

/-- Dict lookup: first binding for the key, if any. -/
def getVal : Metadata → String → Option String
  | [], _ => none
  | (k0, v0) :: rest, k => if k0 = k then some v0 else getVal rest k

/-- Python dict assignment d[k] = v: replace the binding if the key is
present, otherwise append it. -/
def setKey : Metadata → String → String → Metadata
  | [], k, v => [(k, v)]
  | (k0, v0) :: rest, k, v =>
    if k0 = k then (k, v) :: rest else (k0, v0) :: setKey rest k v

/-- A stored document of the vector store: id, text content and metadata. -/
structure Doc where
  id : String
  content : String
  metadata : Metadata
deriving DecidableEq, Repr

/-- A chroma collection: the documents it holds, in insertion order. -/
abbrev Collection := List Doc

/-- The chroma client state: named collections.  Models
chromadb.PersistentClient as a functional association list. -/
abbrev Store := List (String × Collection)

/-- Collection lookup by name (first binding). -/
def lookupColl : Store → String → Option Collection
  | [], _ => none
  | (m, c) :: rest, n => if m = n then some c else lookupColl rest n

/-- Replace the named collection (or append it when absent). -/
def setColl : Store → String → Collection → Store
  | [], n, c => [(n, c)]
  | (m, c0) :: rest, n, c =>
    if m = n then (n, c) :: rest else (m, c0) :: setColl rest n c

/-- Remove the named collection.  Models chroma client.delete_collection,
which raises when the collection does not exist (handled by the caller). -/
def removeColl : Store → String → Store
  | [], _ => []
  | (m, c) :: rest, n => if m = n then rest else (m, c) :: removeColl rest n

/-- ChromaDBManager.get_or_create_collection: returns the store (with the
collection created when absent) and the collection itself. -/
def getOrCreateColl (s : Store) (n : String) : Store × Collection :=
  match lookupColl s n with
  | some c => (s, c)
  | none => (s ++ [(n, [])], [])

/-- models.DocumentModel (pydantic): content, optional metadata, optional id. -/
structure DocumentModel where
  content : String
  metadata : Option Metadata := none
  id : Option String := none
deriving DecidableEq, Repr

/-- models.UpdateDocumentModel (pydantic): optional content and metadata. -/
structure UpdateDocumentModel where
  content : Option String := none
  metadata : Option Metadata := none
deriving DecidableEq, Repr

/-- models.QueryModel (pydantic): query text, n_results defaulting to 5,
optional where filter.  The source field name of the filter is where,
a reserved word in Lean. -/
structure QueryModel where
  query : String
  n_results : Nat := 5
  whereClause : Option Metadata := none
deriving DecidableEq, Repr

/-- models.DocumentResponse: id, content, metadata and optional distance. -/
structure DocumentResponse where
  id : String
  content : String
  metadata : Metadata
  distance : Option Rat := none
deriving DecidableEq, Repr

/-- Python expression opt or dflt for an optional string: None and the
empty string are falsy. -/
def pyOrStr (o : Option String) (dflt : String) : String :=
  match o with
  | none => dflt
  | some s => if s = "" then dflt else s

/-- Python expression opt or dflt for an optional dict: None and the
empty dict are falsy. -/
def pyOrMeta (o : Option Metadata) (dflt : Metadata) : Metadata :=
  match o with
  | none => dflt
  | some m => if m = [] then dflt else m

/-- database.py line 68: doc_id = document.id or str(uuid.uuid4()).  The
generated uuid is the parameter genId; an empty caller id is falsy. -/
def effectiveId (document : DocumentModel) (genId : String) : String :=
  pyOrStr document.id genId

/-- database.py lines 71 and 72: metadata = document.metadata or followed by
the assignment metadata[created_at] = datetime.now().isoformat().  The
timestamp is the opaque parameter now. -/
def preparedMetadata (metadata : Option Metadata) (now : String) : Metadata :=
  setKey (pyOrMeta metadata []) "created_at" now

/-- ChromaDBManager.add_document: get or create the collection, resolve the
id, stamp created_at, and append the document to the collection (chroma
collection.add keeps insertion order).  Returns the new store and the id. -/
def add_document (s : Store) (collName : String) (document : DocumentModel)
    (genId now : String) : Store × String :=
  let p := getOrCreateColl s collName
  let docId := effectiveId document genId
  let metadata := preparedMetadata document.metadata now
  (setColl p.1 collName (p.2 ++ [⟨docId, document.content, metadata⟩]), docId)

/-- Result of chroma collection.get(ids=[id]): parallel ids, documents and
metadatas lists, singletons when the id exists and empty otherwise. -/
structure GetResult where
  ids : List String
  documents : List String
  metadatas : List Metadata
deriving DecidableEq, Repr

/-- Models chroma collection.get(ids=[docId]): no exception is raised for a
missing id; the result lists are simply empty. -/
def chromaGet (coll : Collection) (docId : String) : GetResult :=
  match coll.find? (fun d => d.id == docId) with
  | some d => ⟨[d.id], [d.content], [d.metadata]⟩
  | none => ⟨[], [], []⟩

/-- ChromaDBManager.get_document: returns the document or None; the guard
mirrors the source test if results[documents], and the metadata falls back
to the empty dict when the metadatas list is empty. -/
def get_document (s : Store) (collName docId : String) :
    Option DocumentResponse :=
  let p := getOrCreateColl s collName
  let results := chromaGet p.2 docId
  match results.documents.head? with
  | some c =>
      some { id := results.ids.headD ""
             content := c
             metadata := if results.metadatas ≠ [] then results.metadatas.headD [] else []
             distance := none }
  | none => none

/-- Chroma collection.update(ids, documents, metadatas): replaces content and
metadata of the document with the given id, in place. -/
def updateColl (coll : Collection) (docId newContent : String)
    (newMetadata : Metadata) : Collection :=
  coll.map (fun d => if d.id == docId then ⟨docId, newContent, newMetadata⟩ else d)

/-- ChromaDBManager.update_document.  Mirrors the source: returns false when
the id is absent; new_content = update_data.content or existing; the
new_metadata expression parses as
(update_data.metadata or existing metadata) if existing metadatas else
empty dict, whose else branch is unreachable because collection.get returns
a one element metadatas list for an existing document; updated_at is then
assigned.  The timestamp is the opaque parameter now. -/
def update_document (s : Store) (collName docId : String)
    (upd : UpdateDocumentModel) (now : String) : Store × Bool :=
  let p := getOrCreateColl s collName
  let existing := chromaGet p.2 docId
  match existing.documents.head? with
  | none => (p.1, false)
  | some exContent =>
    let newContent := pyOrStr upd.content exContent
    let newMetadata :=
      if existing.metadatas ≠ [] then pyOrMeta upd.metadata (existing.metadatas.headD [])
      else []
    let stamped := setKey newMetadata "updated_at" now
    (setColl p.1 collName (updateColl p.2 docId newContent stamped), true)

/-- ChromaDBManager.delete_document.  Chroma collection.delete(ids=[id])
silently ignores ids that are not present and does not raise, so the except
branch of the source is never taken (store transport failures are out of
scope) and the function returns true unconditionally. -/
def delete_document (s : Store) (collName docId : String) : Store × Bool :=
  let p := getOrCreateColl s collName
  (setColl p.1 collName (p.2.filter (fun d => d.id != docId)), true)

/-- ChromaDBManager.delete_collection: chroma client.delete_collection raises
when the collection does not exist, which the source catches and turns into
false. -/
def delete_collection (s : Store) (collName : String) : Store × Bool :=
  match lookupColl s collName with
  | some _ => (removeColl s collName, true)
  | none => (s, false)

/-- Metadata equality filter of a chroma where clause: every key of the
clause must map to the required value (logical AND). -/
def matchesWhere (w : Option Metadata) (m : Metadata) : Bool :=
  match w with
  | none => true
  | some conds => conds.all (fun kv => getVal m kv.1 == some kv.2)

/-- Ordering of documents by the distance the store assigns to them for the
current query text; the assignment dist is an oracle parameter keyed by
document id. -/
def distRel (dist : String → Rat) (a b : Doc) : Prop :=
  dist a.id ≤ dist b.id

instance (dist : String → Rat) : DecidableRel (distRel dist) :=
  fun a b => inferInstanceAs (Decidable (dist a.id ≤ dist b.id))

instance (dist : String → Rat) : IsTotal Doc (distRel dist) :=
  ⟨fun a b => le_total (dist a.id) (dist b.id)⟩

instance (dist : String → Rat) : IsTrans Doc (distRel dist) :=
  ⟨fun _ _ _ hab hbc => le_trans hab hbc⟩

/-- Models chroma collection.query for one query text: the matches satisfying
the where clause, ordered by ascending distance (closest first), truncated
to n_results, each paired with its distance. -/
def chromaQuery (coll : Collection) (dist : String → Rat) (nResults : Nat)
    (w : Option Metadata) : List (Doc × Rat) :=
  ((List.insertionSort (distRel dist)
      (coll.filter (fun d => matchesWhere w d.metadata))).take nResults).map
    (fun d => (d, dist d.id))

/-- ChromaDBManager.query_documents: forwards text, n_results and where to
the store and reformats each match as a DocumentResponse carrying its
distance.  An empty match set yields the empty list, not an error. -/
def query_documents (s : Store) (collName : String) (q : QueryModel)
    (dist : String → Rat) : List DocumentResponse :=
  let p := getOrCreateColl s collName
  (chromaQuery p.2 dist q.n_results q.whereClause).map
    (fun dr => { id := dr.1.id
                 content := dr.1.content
                 metadata := dr.1.metadata
                 distance := some dr.2 })

/-- Python str.lower(), modelled character-wise over the underlying list
(the statuses compared here are ASCII). -/
def strLower (s : String) : String := ⟨s.data.map Char.toLower⟩

/-- Python str.strip(): remove leading and trailing whitespace, modelled
over the underlying character list. -/
def pyStrip (s : String) : String :=
  ⟨((s.data.dropWhile Char.isWhitespace).reverse.dropWhile Char.isWhitespace).reverse⟩

/-- Form fields of the twilio transcription webhook
(twilio_server/app.py handle_transcription).  From and To keep their source
names; they default to None in the source and are modelled as plain
strings, which is what the provider posts. -/
structure TranscriptionForm where
  CallSid : String
  TranscriptionText : String
  TranscriptionStatus : String
  RecordingSid : String
  RecordingUrl : String
  From : String
  To : String
deriving DecidableEq, Repr

/-- The call_metadata dict built by handle_transcription; the utcnow
timestamp is the opaque parameter nowUtc. -/
def call_metadata (f : TranscriptionForm) (nowUtc : String) : Metadata :=
  [("call_sid", f.CallSid),
   ("recording_sid", f.RecordingSid),
   ("from_number", f.From),
   ("to_number", f.To),
   ("transcription_status", f.TranscriptionStatus),
   ("recording_url", f.RecordingUrl),
   ("timestamp", nowUtc),
   ("source", "twilio_transcription")]

/-- Outcome of the transcription webhook: the HTTP status returned to the
provider and the add_document invocation issued, if any (transcript text
paired with the metadata passed along). -/
structure TransResult where
  status : Nat
  addCall : Option (String × Metadata)
deriving DecidableEq, Repr

/-- twilio_server/app.py handle_transcription.  The logging parameter stands
for the logging and printing statements of the handler body, which may
raise: an exception there reaches the outer except branch, which raises
HTTPException 500.  The store parameter stands for the chroma add call,
whose failure is caught by the inner except and only logged, so the
add_document invocation is issued and 200 is returned either way.  The
document is stored exactly when the status lowercases to completed and the
stripped text is non-empty. -/
def handle_transcription (f : TranscriptionForm) (nowUtc : String)
    (logging store : Except String Unit) : TransResult :=
  match logging with
  | .error _ => { status := 500, addCall := none }
  | .ok _ =>
    if strLower f.TranscriptionStatus == "completed"
        && (pyStrip f.TranscriptionText) != "" then
      match store with
      | .ok _ => { status := 200, addCall := some (f.TranscriptionText, call_metadata f nowUtc) }
      | .error _ => { status := 200, addCall := some (f.TranscriptionText, call_metadata f nowUtc) }
    else { status := 200, addCall := none }

/-- Parsed body of an infobip webhook request; the source reads
webhook_data.get(type), which may be absent.  The source key is type, a
reserved word in Lean. -/
structure WebhookData where
  eventType : Option String
deriving DecidableEq, Repr

/-- Event dispatch of mcp_server/app.py events_webhook.  The transcription
and call-established handlers perform printing and provider API calls and
may raise, so they are abstract computations; the CALL_FINISHED,
CALL_FAILED and unknown branches only log and are modelled as returning
normally. -/
def dispatchEvent (handleTrans handleEstab : Except String Unit)
    (d : WebhookData) : Except String Unit :=
  if d.eventType == some "TRANSCRIPTION" then handleTrans
  else if d.eventType == some "CALL_ESTABLISHED" then handleEstab
  else if d.eventType == some "CALL_FINISHED" then Except.ok ()
  else if d.eventType == some "CALL_FAILED" then Except.ok ()
  else Except.ok ()

/-- mcp_server/app.py events_webhook: parse the body (request.json may
raise), dispatch on the event type, answer 200; any exception reaches the
except branch, which raises HTTPException 500. -/
def events_webhook (parsed : Except String WebhookData)
    (handleTrans handleEstab : Except String Unit) : Nat :=
  match parsed with
  | .error _ => 500
  | .ok d =>
    match dispatchEvent handleTrans handleEstab d with
    | .error _ => 500
    | .ok _ => 200

/-- One formatted result of the twilio search endpoint: the transcript, its
metadata and similarity_score = 1 - distance. -/
structure SearchItem where
  transcription : String
  metadata : Option Metadata
  similarity_score : Option Rat
deriving DecidableEq, Repr

/-- The where clause built by twilio_server/app.py search_transcriptions:
from_number and to_number are included when truthy (neither None nor
empty), and the whole clause is passed as None when empty. -/
def whereFromNumbers (from_number to_number : Option String) : Option Metadata :=
  let w1 : Metadata :=
    match from_number with
    | some f => if f = "" then [] else [("from_number", f)]
    | none => []
  let w2 : Metadata :=
    match to_number with
    | some t => if t = "" then [] else [("to_number", t)]
    | none => []
  let w := w1 ++ w2
  if w = [] then none else some w

/-- twilio_server/app.py search_transcriptions over the callmind collection:
queries the store through retrieve_document and formats every match as a
SearchItem with similarity_score = 1 - distance.  No match is discarded. -/
def search_transcriptions (coll : Collection) (dist : String → Rat)
    (query : String) (n_results : Nat)
    (from_number to_number : Option String) : List SearchItem :=
  let w := whereFromNumbers from_number to_number
  let results := chromaQuery coll dist n_results w
  results.map (fun dr =>
    { transcription := dr.1.content
      metadata := some dr.1.metadata
      similarity_score := some (1 - dr.2) })

theorem getVal_setKey_self (m : Metadata) (k v : String) :
    getVal (setKey m k v) k = some v := by
  induction m with
  | nil => simp [setKey, getVal]
  | cons kv rest ih =>
    obtain ⟨k0, v0⟩ := kv
    by_cases h : k0 = k
    · simp [setKey, getVal, h]
    · simp [setKey, getVal, h, ih]

theorem getVal_setKey_ne (m : Metadata) (k k0 v : String) (h : k0 ≠ k) :
    getVal (setKey m k v) k0 = getVal m k0 := by
  have hk : k ≠ k0 := fun he => h he.symm
  induction m with
  | nil => simp [setKey, getVal, hk]
  | cons kv rest ih =>
    obtain ⟨k1, v1⟩ := kv
    by_cases h1 : k1 = k
    · subst h1
      simp [setKey, getVal, hk]
    · simp [setKey, getVal, h1, ih]

theorem lookupColl_setColl_self (s : Store) (n : String) (c : Collection) :
    lookupColl (setColl s n c) n = some c := by
  induction s with
  | nil => simp [setColl, lookupColl]
  | cons mc rest ih =>
    obtain ⟨m, c0⟩ := mc
    by_cases h : m = n
    · simp [setColl, lookupColl, h]
    · simp [setColl, lookupColl, h, ih]

theorem getOrCreateColl_setColl_self (s : Store) (n : String) (c : Collection) :
    getOrCreateColl (setColl s n c) n = (setColl s n c, c) := by
  simp [getOrCreateColl, lookupColl_setColl_self]

theorem find?_append_of_none {α : Type} (p : α → Bool) (l1 l2 : List α)
    (h : l1.find? p = none) : (l1 ++ l2).find? p = l2.find? p := by
  induction l1 with
  | nil => simp
  | cons a l ih =>
    cases hp : p a with
    | true => simp [List.find?, hp] at h
    | false =>
      simp only [List.find?, hp] at h
      simpa [List.find?, hp] using ih h

theorem find?_filter_id_ne (coll : Collection) (docId : String) :
    (coll.filter (fun d => d.id != docId)).find? (fun d => d.id == docId) = none := by
  rw [List.find?_eq_none]
  intro x hx
  have hne := (List.mem_filter.mp hx).2
  simp only [bne_iff_ne, ne_eq, decide_eq_true_eq] at hne
  simp [hne]

theorem updateColl_cons (a : Doc) (l : Collection) (docId newContent : String)
    (newMetadata : Metadata) :
    updateColl (a :: l) docId newContent newMetadata =
      (if a.id == docId then ⟨docId, newContent, newMetadata⟩ else a)
        :: updateColl l docId newContent newMetadata := rfl

theorem find?_updateColl (coll : Collection) (docId newContent : String)
    (newMetadata : Metadata)
    (h : (coll.find? (fun d => d.id == docId)).isSome) :
    (updateColl coll docId newContent newMetadata).find? (fun d => d.id == docId) =
      some ⟨docId, newContent, newMetadata⟩ := by
  induction coll with
  | nil => simp [List.find?] at h
  | cons a l ih =>
    rw [updateColl_cons]
    by_cases ha : a.id = docId
    · rw [if_pos (by simp [ha])]
      exact List.find?_cons_of_pos _ (by simp)
    · rw [if_neg (by simp [ha])]
      rw [List.find?_cons_of_neg _ (by simp [ha]) ] at h
      rw [List.find?_cons_of_neg _ (by simp [ha]) ]
      exact ih h

/-- C1 counterexample: with caller metadata mapping created_at to T0 and
ingestion timestamp T1, the metadata handed to the store add call maps
created_at to T1, not to the caller-supplied T0, refuting the claim that a
caller-supplied created_at is never overwritten. -/
theorem add_document_created_at_cex :
    lookupColl (add_document [] "c1"
        { content := "A", metadata := some [("created_at", "T0")] } "g1" "T1").1 "c1" =
      some [⟨"g1", "A", [("created_at", "T1")]⟩] ∧
    ("T1" : String) ≠ "T0" := by
  constructor
  · rfl
  · decide

/-- C1 (amended): add_document always stamps created_at with the ingestion
timestamp, overwriting any caller-supplied created_at; every other metadata
key is forwarded to the store unchanged. -/
theorem add_document_created_at (s : Store) (collName : String)
    (document : DocumentModel) (genId now : String) :
    (∃ c, lookupColl (add_document s collName document genId now).1 collName = some c ∧
      c.getLast? = some ⟨effectiveId document genId, document.content,
        preparedMetadata document.metadata now⟩) ∧
    getVal (preparedMetadata document.metadata now) "created_at" = some now ∧
    ∀ k, k ≠ "created_at" →
      getVal (preparedMetadata document.metadata now) k =
        getVal (pyOrMeta document.metadata []) k := by
  refine ⟨⟨(getOrCreateColl s collName).2 ++
      [⟨effectiveId document genId, document.content,
        preparedMetadata document.metadata now⟩], ?_, ?_⟩,
    getVal_setKey_self _ _ _, ?_⟩
  · simp [add_document, lookupColl_setColl_self]
  · simp
  · intro k hk
    exact getVal_setKey_ne _ _ _ _ hk

/-- C1 witness: the amended created_at behavior at a concrete input. -/
theorem add_document_created_at_witness :
    getVal (preparedMetadata (some [("topic", "x")]) "T1") "created_at" = some "T1" ∧
    getVal (preparedMetadata (some [("topic", "x")]) "T1") "topic" =
      getVal (pyOrMeta (some [("topic", "x")]) []) "topic" :=
  ⟨(add_document_created_at [] "c1"
      { content := "A", metadata := some [("topic", "x")] } "g1" "T1").2.1,
   (add_document_created_at [] "c1"
      { content := "A", metadata := some [("topic", "x")] } "g1" "T1").2.2 "topic" (by decide)⟩

/-- C2 counterexample: when the caller metadata already contains created_at
mapped to T0, the document read back after add maps created_at to the
ingestion timestamp T1, so the returned metadata does not contain every
caller key-value pair. -/
theorem add_get_roundtrip_cex :
    (get_document (add_document [] "c1"
          { content := "A", metadata := some [("created_at", "T0")] } "g1" "T1").1
        "c1" "g1").map (fun r => getVal r.metadata "created_at") =
      some (some "T1") ∧ ("T1" : String) ≠ "T0" := by
  constructor
  · rfl
  · decide

/-- C2 (amended): for a fresh id, add_document followed by get_document with
the returned id yields a present document whose content equals the input
content and whose metadata maps created_at to the ingestion timestamp and
preserves every caller pair at keys other than created_at. -/
theorem add_get_roundtrip (s : Store) (collName : String)
    (document : DocumentModel) (genId now : String)
    (hfresh : ∀ d ∈ (getOrCreateColl s collName).2, d.id ≠ effectiveId document genId) :
    get_document (add_document s collName document genId now).1 collName
        (add_document s collName document genId now).2 =
      some ⟨effectiveId document genId, document.content,
        preparedMetadata document.metadata now, none⟩ ∧
    getVal (preparedMetadata document.metadata now) "created_at" = some now ∧
    ∀ k v, k ≠ "created_at" → getVal (pyOrMeta document.metadata []) k = some v →
      getVal (preparedMetadata document.metadata now) k = some v := by
  refine ⟨?_, getVal_setKey_self _ _ _, ?_⟩
  · have hnone : ((getOrCreateColl s collName).2.find?
        (fun d => d.id == effectiveId document genId)) = none := by
      rw [List.find?_eq_none]
      intro x hx
      simpa using hfresh x hx
    simp only [add_document, get_document]
    rw [getOrCreateColl_setColl_self]
    simp only [chromaGet, find?_append_of_none _ _ _ hnone, List.find?]
    simp
  · intro k v hk hv
    rw [preparedMetadata, getVal_setKey_ne _ _ _ _ hk]
    exact hv

/-- C2 witness: the amended roundtrip at a concrete input. -/
theorem add_get_roundtrip_witness :
    get_document (add_document [] "c1"
        { content := "A", metadata := some [("topic", "x")] } "g1" "T1").1 "c1"
      (add_document [] "c1" { content := "A", metadata := some [("topic", "x")] } "g1" "T1").2 =
      some ⟨"g1", "A", [("topic", "x"), ("created_at", "T1")], none⟩ ∧
    getVal (preparedMetadata (some [("topic", "x")]) "T1") "topic" = some "x" := by
  have h := add_get_roundtrip [] "c1"
    { content := "A", metadata := some [("topic", "x")] } "g1" "T1" (by decide)
  exact ⟨h.1, h.2.2 "topic" "x" (by decide) (by decide)⟩

/-- C3 counterexample: delete succeeds, the document is gone, yet a second
delete_document on the same id returns true, not false as claimed, because
the chroma delete by id is a silent no-op for absent ids. -/
theorem delete_document_second_cex :
    (delete_document [("c1", [⟨"d1", "A", []⟩])] "c1" "d1").2 = true ∧
    get_document (delete_document [("c1", [⟨"d1", "A", []⟩])] "c1" "d1").1 "c1" "d1" = none ∧
    (delete_document (delete_document [("c1", [⟨"d1", "A", []⟩])] "c1" "d1").1 "c1" "d1").2 = true := by
  exact ⟨rfl, rfl, rfl⟩

/-- C3 (amended): delete_document never raises and returns true even when the
target does not exist (the chroma delete by id silently ignores absent
ids); after it, get_document on the same id is absent; delete_collection
returns false, rather than raising, when the collection does not exist. -/
theorem delete_semantics (s : Store) (collName docId : String) :
    (delete_document s collName docId).2 = true ∧
    get_document (delete_document s collName docId).1 collName docId = none ∧
    (lookupColl s collName = none → (delete_collection s collName).2 = false) := by
  refine ⟨rfl, ?_, ?_⟩
  · simp only [delete_document, get_document]
    rw [getOrCreateColl_setColl_self]
    simp only [chromaGet, find?_filter_id_ne]
    rfl
  · intro h
    simp [delete_collection, h]

/-- C3 witness: the amended delete behavior at concrete inputs, with the
absent-collection hypothesis discharged. -/
theorem delete_semantics_witness :
    (delete_document [] "c1" "d1").2 = true ∧
    get_document (delete_document [] "c1" "d1").1 "c1" "d1" = none ∧
    (delete_collection [] "c1").2 = false :=
  ⟨(delete_semantics [] "c1" "d1").1, (delete_semantics [] "c1" "d1").2.1,
   (delete_semantics [] "c1" "d1").2.2 rfl⟩

/-- C4: query_documents returns at most n_results matches, each carrying a
distance, ordered by non-decreasing distance (closest first); an empty
match set yields the empty list rather than an error; and n_results
defaults to 5 when omitted. -/
theorem query_documents_spec (s : Store) (collName : String) (q : QueryModel)
    (dist : String → Rat) (hq : q.query ≠ "") (hk : 0 < q.n_results) :
    (query_documents s collName q dist).length ≤ q.n_results ∧
    List.Pairwise (fun a b => ∀ x ∈ a.distance, ∀ y ∈ b.distance, x ≤ y)
      (query_documents s collName q dist) ∧
    (∀ r ∈ query_documents s collName q dist, r.distance.isSome) ∧
    (((getOrCreateColl s collName).2.filter
        (fun d => matchesWhere q.whereClause d.metadata)) = [] →
      query_documents s collName q dist = []) ∧
    ({ query := q.query } : QueryModel).n_results = 5 := by
  refine ⟨?_, ?_, ?_, ?_, rfl⟩
  · simp only [query_documents, chromaQuery, List.length_map, List.length_take]
    exact Nat.min_le_left _ _
  · simp only [query_documents, chromaQuery, List.pairwise_map]
    refine List.Pairwise.imp ?_
      (List.Pairwise.sublist (List.take_sublist _ _) (List.sorted_insertionSort _ _))
    intro a b hab x hx y hy
    rw [Option.mem_def, Option.some_inj] at hx hy
    subst hx
    subst hy
    exact hab
  · intro r hr
    simp only [query_documents, chromaQuery, List.mem_map] at hr
    obtain ⟨dr, _, rfl⟩ := hr
    rfl
  · intro h
    simp [query_documents, chromaQuery, h]

/-- C4 witness: the bound at a concrete query with the hypotheses
discharged. -/
theorem query_documents_spec_witness :
    (query_documents [] "c1" { query := "x" } (fun _ => (0 : Rat))).length ≤
      ({ query := "x" } : QueryModel).n_results :=
  (query_documents_spec [] "c1" { query := "x" } (fun _ => (0 : Rat))
    (by decide) (by decide)).1

/-- C5 counterexample: a processing exception in the transcription branch of
the events webhook is answered with HTTP 500, not 200, refuting the claim
that all processing exceptions are swallowed. -/
theorem events_webhook_exception_cex :
    events_webhook (Except.ok ⟨some "TRANSCRIPTION"⟩)
      (Except.error "boom") (Except.ok ()) = 500 ∧ (500 : Nat) ≠ 200 := by
  exact ⟨rfl, by decide⟩

/-- C5 (amended): unknown event types are acknowledged with HTTP 200 and
ignored, and the transcription webhook swallows vector-store failures and
still returns 200; but a body parse failure or an exception raised while
processing a known event is surfaced to the provider as HTTP 500. -/
theorem webhook_ack_semantics (handleTrans handleEstab : Except String Unit)
    (d : WebhookData) (f : TranscriptionForm) (nowUtc msg : String) :
    (d.eventType ∉ [some "TRANSCRIPTION", some "CALL_ESTABLISHED",
        some "CALL_FINISHED", some "CALL_FAILED"] →
      events_webhook (Except.ok d) handleTrans handleEstab = 200) ∧
    (handle_transcription f nowUtc (Except.ok ()) (Except.error msg)).status = 200 ∧
    events_webhook (Except.error msg) handleTrans handleEstab = 500 ∧
    events_webhook (Except.ok ⟨some "TRANSCRIPTION"⟩) (Except.error msg) handleEstab = 500 := by
  refine ⟨?_, ?_, rfl, rfl⟩
  · intro h
    simp only [List.mem_cons, List.not_mem_nil, or_false, not_or] at h
    obtain ⟨h1, h2, h3, h4⟩ := h
    simp [events_webhook, dispatchEvent, h1, h2, h3, h4]
  · simp only [handle_transcription]
    split <;> rfl

/-- C5 witness: the amended acknowledgement behavior at concrete inputs,
with the unknown-event hypothesis discharged. -/
theorem webhook_ack_semantics_witness :
    events_webhook (Except.ok ⟨some "OTHER"⟩) (Except.error "boom") (Except.ok ()) = 200 ∧
    (handle_transcription ⟨"CA1", " hi ", "Completed", "RE1", "U", "+1", "+2"⟩ "T"
        (Except.ok ()) (Except.error "down")).status = 200 ∧
    events_webhook (Except.error "bad") (Except.ok ()) (Except.ok ()) = 500 :=
  ⟨(webhook_ack_semantics (Except.error "boom") (Except.ok ()) ⟨some "OTHER"⟩
      ⟨"CA1", " hi ", "Completed", "RE1", "U", "+1", "+2"⟩ "T" "x").1 (by decide),
   (webhook_ack_semantics (Except.ok ()) (Except.ok ()) ⟨some "OTHER"⟩
      ⟨"CA1", " hi ", "Completed", "RE1", "U", "+1", "+2"⟩ "T" "down").2.1,
   (webhook_ack_semantics (Except.ok ()) (Except.ok ()) ⟨some "OTHER"⟩
      ⟨"CA1", " hi ", "Completed", "RE1", "U", "+1", "+2"⟩ "T" "bad").2.2.1⟩

/-- C6: with the handler body logging succeeding, the transcription webhook
issues the add_document call exactly when the status lowercases to
completed and the stripped transcript is non-empty; the call carries the
transcript as content, and the metadata carries the call sid, the numbers,
the recording reference, the completion status and the provider source. -/
theorem handle_transcription_persist_iff (f : TranscriptionForm)
    (nowUtc : String) (store : Except String Unit) :
    ((handle_transcription f nowUtc (Except.ok ()) store).addCall ≠ none ↔
      (strLower f.TranscriptionStatus = "completed" ∧ (pyStrip f.TranscriptionText) ≠ "")) ∧
    (∀ p, (handle_transcription f nowUtc (Except.ok ()) store).addCall = some p →
      p = (f.TranscriptionText, call_metadata f nowUtc)) ∧
    getVal (call_metadata f nowUtc) "call_sid" = some f.CallSid ∧
    getVal (call_metadata f nowUtc) "from_number" = some f.From ∧
    getVal (call_metadata f nowUtc) "to_number" = some f.To ∧
    getVal (call_metadata f nowUtc) "recording_sid" = some f.RecordingSid ∧
    getVal (call_metadata f nowUtc) "recording_url" = some f.RecordingUrl ∧
    getVal (call_metadata f nowUtc) "transcription_status" = some f.TranscriptionStatus ∧
    getVal (call_metadata f nowUtc) "source" = some "twilio_transcription" := by
  have hcond : (strLower f.TranscriptionStatus == "completed"
      && (pyStrip f.TranscriptionText) != "") = true ↔
      (strLower f.TranscriptionStatus = "completed" ∧ (pyStrip f.TranscriptionText) ≠ "") := by
    simp [Bool.and_eq_true]
  refine ⟨?_, ?_, ?_, ?_, ?_, ?_, ?_, ?_, ?_⟩
  · simp only [handle_transcription]
    by_cases hc : (strLower f.TranscriptionStatus == "completed"
        && (pyStrip f.TranscriptionText) != "") = true
    · rw [if_pos hc]
      cases store <;> simp [hcond.mp hc]
    · rw [if_neg hc]
      rw [← hcond]
      simp [hc]
  · intro p hp
    simp only [handle_transcription] at hp
    by_cases hc : (strLower f.TranscriptionStatus == "completed"
        && (pyStrip f.TranscriptionText) != "") = true
    · rw [if_pos hc] at hp
      cases store <;> exact (Option.some_inj.mp hp).symm
    · rw [if_neg hc] at hp
      simp at hp
  · simp [call_metadata, getVal]
  · simp [call_metadata, getVal]
  · simp [call_metadata, getVal]
  · simp [call_metadata, getVal]
  · simp [call_metadata, getVal]
  · simp [call_metadata, getVal]
  · simp [call_metadata, getVal]

/-- C6 witness: a final, non-empty transcription is persisted at a concrete
input, with the condition discharged. -/
theorem handle_transcription_persist_iff_witness :
    (handle_transcription ⟨"CA1", " hi ", "Completed", "RE1", "U", "+1", "+2"⟩ "T"
        (Except.ok ()) (Except.ok ())).addCall ≠ none ∧
    getVal (call_metadata ⟨"CA1", " hi ", "Completed", "RE1", "U", "+1", "+2"⟩ "T") "source" =
      some "twilio_transcription" :=
  ⟨(handle_transcription_persist_iff ⟨"CA1", " hi ", "Completed", "RE1", "U", "+1", "+2"⟩ "T"
      (Except.ok ())).1.mpr (by decide),
   (handle_transcription_persist_iff ⟨"CA1", " hi ", "Completed", "RE1", "U", "+1", "+2"⟩ "T"
      (Except.ok ())).2.2.2.2.2.2.2.2⟩

theorem update_document_found (s : Store) (collName docId : String)
    (upd : UpdateDocumentModel) (now : String) (d : Doc)
    (hfind : (getOrCreateColl s collName).2.find? (fun x => x.id == docId) = some d) :
    (update_document s collName docId upd now).2 = true ∧
    get_document (update_document s collName docId upd now).1 collName docId =
      some ⟨docId, pyOrStr upd.content d.content,
        setKey (pyOrMeta upd.metadata d.metadata) "updated_at" now, none⟩ := by
  have hsome : ((getOrCreateColl s collName).2.find? (fun x => x.id == docId)).isSome := by
    rw [hfind]
    rfl
  have hupd : update_document s collName docId upd now =
      (setColl (getOrCreateColl s collName).1 collName
        (updateColl (getOrCreateColl s collName).2 docId (pyOrStr upd.content d.content)
          (setKey (pyOrMeta upd.metadata d.metadata) "updated_at" now)), true) := by
    simp [update_document, chromaGet, hfind]
  constructor
  · rw [hupd]
  · rw [hupd]
    simp only [get_document]
    rw [getOrCreateColl_setColl_self]
    simp only [chromaGet, find?_updateColl _ _ _ _ hsome]
    simp

/-- C7: for an existing document, a successful update with content omitted
preserves the stored content exactly, and the metadata resulting from any
successful update has an updated_at timestamp merged into it. -/
theorem update_document_frame (s : Store) (collName docId : String)
    (upd : UpdateDocumentModel) (now : String) (d : Doc)
    (hfind : (getOrCreateColl s collName).2.find? (fun x => x.id == docId) = some d) :
    (update_document s collName docId upd now).2 = true ∧
    get_document (update_document s collName docId upd now).1 collName docId =
      some ⟨docId, pyOrStr upd.content d.content,
        setKey (pyOrMeta upd.metadata d.metadata) "updated_at" now, none⟩ ∧
    (upd.content = none → pyOrStr upd.content d.content = d.content) ∧
    getVal (setKey (pyOrMeta upd.metadata d.metadata) "updated_at" now) "updated_at" =
      some now :=
  ⟨(update_document_found s collName docId upd now d hfind).1,
   (update_document_found s collName docId upd now d hfind).2,
   fun h => by rw [h]; rfl,
   getVal_setKey_self _ _ _⟩

/-- C7 witness: a metadata-only update on a concrete store succeeds, with the
existing-document hypothesis discharged. -/
theorem update_document_frame_witness :
    (update_document [("c1", [⟨"d1", "A", [("k", "v")]⟩])] "c1" "d1"
        { content := none, metadata := some [("k2", "v2")] } "T").2 = true :=
  (update_document_frame [("c1", [⟨"d1", "A", [("k", "v")]⟩])] "c1" "d1"
    { content := none, metadata := some [("k2", "v2")] } "T"
    ⟨"d1", "A", [("k", "v")]⟩ (by decide)).1

/-- C8: update_document returns false when no document with the given id
exists in the collection; the embedded operation is total, so no exception
escapes. -/
theorem update_document_missing (s : Store) (collName docId : String)
    (upd : UpdateDocumentModel) (now : String)
    (habs : ∀ d ∈ (getOrCreateColl s collName).2, d.id ≠ docId) :
    (update_document s collName docId upd now).2 = false ∧
    (update_document s collName docId upd now).1 = (getOrCreateColl s collName).1 := by
  have hnone : ((getOrCreateColl s collName).2.find? (fun d => d.id == docId)) = none := by
    rw [List.find?_eq_none]
    intro x hx
    simpa using habs x hx
  constructor <;> simp [update_document, chromaGet, hnone]

/-- C8 witness: updating a missing id on a concrete store returns false,
with the absence hypothesis discharged. -/
theorem update_document_missing_witness :
    (update_document [] "c1" "missing" { content := some "B" } "T").2 = false :=
  (update_document_missing [] "c1" "missing" { content := some "B" } "T" (by decide)).1

/-- C10: update_document treats falsy field values as omitted: supplying the
empty string as content and the empty mapping as metadata behaves exactly
like omitting both, so a caller can never set the content to the empty
string nor replace the metadata with an empty mapping; the prior content
and metadata are retained, with updated_at stamped in. -/
theorem update_document_falsy (s : Store) (collName docId now : String) (d : Doc)
    (hfind : (getOrCreateColl s collName).2.find? (fun x => x.id == docId) = some d) :
    update_document s collName docId { content := some "", metadata := some [] } now =
      update_document s collName docId { content := none, metadata := none } now ∧
    get_document (update_document s collName docId
        { content := some "", metadata := some [] } now).1 collName docId =
      some ⟨docId, d.content, setKey d.metadata "updated_at" now, none⟩ := by
  constructor
  · simp [update_document, chromaGet, hfind, pyOrStr, pyOrMeta]
  · have h := (update_document_found s collName docId
      { content := some "", metadata := some [] } now d hfind).2
    simpa [pyOrStr, pyOrMeta] using h

/-- C10 witness: the falsy update coincides with the omitted update on a
concrete store, with the existing-document hypothesis discharged. -/
theorem update_document_falsy_witness :
    update_document [("c1", [⟨"d1", "A", [("k", "v")]⟩])] "c1" "d1"
        { content := some "", metadata := some [] } "T" =
      update_document [("c1", [⟨"d1", "A", [("k", "v")]⟩])] "c1" "d1"
        { content := none, metadata := none } "T" :=
  (update_document_falsy [("c1", [⟨"d1", "A", [("k", "v")]⟩])] "c1" "d1" "T"
    ⟨"d1", "A", [("k", "v")]⟩ (by decide)).1

/-- C9 counterexample: a store match at distance one fifth, below the claimed
three-quarters threshold, is returned by search_transcriptions rather than
discarded, refuting the claimed relevance filter. -/
theorem search_transcriptions_threshold_cex :
    search_transcriptions [⟨"d1", "hello", []⟩] (fun _ => (1 : Rat)/5) "q" 5 none none =
      [{ transcription := "hello", metadata := some [],
         similarity_score := some ((4 : Rat)/5) }] ∧
    ¬ ((3 : Rat)/4 ≤ (1 : Rat)/5) := by
  constructor
  · norm_num [search_transcriptions, chromaQuery, whereFromNumbers, matchesWhere,
      List.insertionSort, List.orderedInsert]
  · norm_num

/-- C9 (amended): search_transcriptions applies no relevance threshold: it
returns one result per store match, each with similarity_score equal to
one minus the distance, keeping matches of every distance. -/
theorem search_transcriptions_no_threshold (coll : Collection) (dist : String → Rat)
    (query : String) (n_results : Nat) (from_number to_number : Option String) :
    (search_transcriptions coll dist query n_results from_number to_number).length =
      (chromaQuery coll dist n_results (whereFromNumbers from_number to_number)).length ∧
    ∀ p ∈ chromaQuery coll dist n_results (whereFromNumbers from_number to_number),
      ({ transcription := p.1.content, metadata := some p.1.metadata,
         similarity_score := some (1 - p.2) } : SearchItem) ∈
        search_transcriptions coll dist query n_results from_number to_number := by
  refine ⟨by simp [search_transcriptions], ?_⟩
  intro p hp
  simp only [search_transcriptions, List.mem_map]
  exact ⟨p, hp, rfl⟩

/-- C9 witness: a concrete below-threshold match is kept, with the
membership hypothesis discharged. -/
theorem search_transcriptions_no_threshold_witness :
    ({ transcription := "hello", metadata := some [],
       similarity_score := some (1 - (1 : Rat)/5) } : SearchItem) ∈
      search_transcriptions [⟨"d1", "hello", []⟩] (fun _ => (1 : Rat)/5) "q" 5 none none :=
  (search_transcriptions_no_threshold [⟨"d1", "hello", []⟩] (fun _ => (1 : Rat)/5)
    "q" 5 none none).2 (⟨"d1", "hello", []⟩, (1 : Rat)/5)
    (by simp [chromaQuery, whereFromNumbers, matchesWhere, List.insertionSort,
      List.orderedInsert])

end CallMind
